import Mathlib

/-!
Verification of the pharmacy-claims pipeline (`src/` of this repository)
against its natural-language specification.

The Python source is shallowly embedded:
* records (`Claim`, `Revert`, `Pharmacy`) become Lean structures with the
  fields the pipeline reads;
* raw JSON records submitted to the validators become association lists of
  dynamically-typed Python values (`PyVal`), so that wrong-typed and missing
  fields can be expressed;
* Python exceptions are modelled with `Except PyErr`: a function that can
  raise returns `.error e` where the Python code would propagate exception
  `e`;
* Python `float` values are modelled as rationals (`ℚ`); every concrete
  value evaluated in a theorem below (10.0, 5.0, 2.0, ...) is exactly
  representable in binary floating point, and the operations performed on
  them by the concrete inputs are exact, so the rational model agrees with
  the float semantics at those inputs.
-/

/-- Python exceptions that the embedded code can raise. -/
inductive PyErr where
  | typeError
  | attributeError
  deriving Repr, DecidableEq

/-- A claim record as used by the pipeline stages after validation
(`main.py`): the fields read by `filter_claims_by_pharmacies`,
`remove_duplicate_claims` and `calculate_metrics`. -/
structure Claim where
  id : String
  ndc : String
  npi : String
  quantity : ℤ
  price : ℚ
  timestamp : String
  deriving Repr, DecidableEq

/-- A revert record as used by the pipeline stages after validation
(only `id`, `claim_id` and `timestamp` exist in the schema). -/
structure Revert where
  id : String
  claim_id : String
  timestamp : String
  deriving Repr, DecidableEq

/-- A pharmacy row (`load_and_clean_pharmacies.py`): the pipeline only ever
reads the `npi` and `chain` columns; further CSV columns are carried along
verbatim by the Python code and never inspected, so they are omitted here. -/
structure Pharmacy where
  npi : String
  chain : String
  deriving Repr, DecidableEq

/-- Dynamically-typed Python values appearing as record fields and as
elements of the `reverts` argument of `calculate_metrics`.  JSON scalars are
covered; the only compound values that flow into the embedded code are
revert dicts (the elements of the reverts list that `main.py` hands to
`calculate_metrics`), which get their own constructor. -/
inductive PyVal where
  | str (s : String)
  | int (n : ℤ)
  | float (q : ℚ)
  | bool (b : Bool)
  | none
  | revertDict (r : Revert)
  deriving Repr, DecidableEq

/-- A raw JSON record: a Python dict, modelled as an association list
(Python dict keys are unique; lookup takes the first binding). -/
def PyDict := List (String × PyVal)

/-- Python `key in data` / `data[key]` on a dict. -/
def pyLookup (key : String) (data : PyDict) : Option PyVal :=
  (data.find? (fun kv => kv.1 == key)).map (·.2)

/-- Python `==` between the values of `PyVal`.  Python compares numbers
across `int`/`float`/`bool` by numeric value; values of unrelated types
(e.g. a `str` and a dict) are never equal. -/
def pyEq : PyVal → PyVal → Bool
  | .str a, .str b => a == b
  | .int a, .int b => a == b
  | .int a, .float b => (a : ℚ) == b
  | .float a, .int b => a == (b : ℚ)
  | .float a, .float b => a == b
  | .bool a, .bool b => a == b
  | .bool a, .int b => (if a then 1 else 0 : ℤ) == b
  | .int a, .bool b => a == (if b then 1 else 0 : ℤ)
  | .bool a, .float b => (if a then 1 else 0 : ℚ) == b
  | .float a, .bool b => a == (if b then 1 else 0 : ℚ)
  | .none, .none => true
  | .revertDict a, .revertDict b => a == b
  | _, _ => false

/-- Python `x in xs` for a list `xs`. -/
def pyIn (v : PyVal) (xs : List PyVal) : Bool :=
  xs.any (fun w => pyEq v w)

/-- The Python value of a revert record: the dict that `main.py` passes to
`calculate_metrics` inside the reverts list. -/
def Revert.toPyVal (r : Revert) : PyVal := .revertDict r

/-! ## `utils.py`: cross-reference filters and deduplication -/

/-- Embeds `utils.filter_claims_by_pharmacies`: keep the claims whose `npi` is in
the set of pharmacy NPIs.  The Python set `valid_npis` is modelled by the
list of NPIs (membership in the set and in the list coincide). -/
def filter_claims_by_pharmacies (claims : List Claim) (pharmacies : List Pharmacy) :
    List Claim :=
  let valid_npis := pharmacies.map (·.npi)
  claims.filter (fun claim => valid_npis.contains claim.npi)

/-- Embeds `utils.filter_reverts_by_claims`: keep the reverts whose `claim_id` is in
the set of claim ids. -/
def filter_reverts_by_claims (reverts : List Revert) (claims : List Claim) :
    List Revert :=
  let valid_claim_ids := claims.map (·.id)
  reverts.filter (fun revert => valid_claim_ids.contains revert.claim_id)

/-- The loop body of `utils.remove_duplicate_claims`, with the `seen_ids`
set hoisted into an explicit argument (Python mutates a set while walking
the list; here the recursion carries the set of ids seen so far). -/
def removeDupAux (seen : List String) : List Claim → List Claim
  | [] => []
  | claim :: rest =>
    if claim.id ∈ seen then removeDupAux seen rest
    else claim :: removeDupAux (claim.id :: seen) rest

/-- Embeds `utils.remove_duplicate_claims`: keep the first occurrence of each
claim id. -/
def remove_duplicate_claims (claims : List Claim) : List Claim :=
  removeDupAux [] claims

/-! Lemmas about `remove_duplicate_claims`. -/

theorem removeDupAux_sublist (seen : List String) (claims : List Claim) :
    (removeDupAux seen claims).Sublist claims := by
  induction claims generalizing seen with
  | nil => simp [removeDupAux]
  | cons c rest ih =>
    by_cases h : c.id ∈ seen
    · simp only [removeDupAux, if_pos h]
      exact (ih seen).trans (List.sublist_cons_self c rest)
    · simp only [removeDupAux, if_neg h]
      exact (ih (c.id :: seen)).cons₂ c

theorem removeDupAux_mem_iff (seen : List String) (claims : List Claim) (c : Claim) :
    c ∈ removeDupAux seen claims ↔
      c.id ∉ seen ∧ claims.find? (fun d => d.id == c.id) = some c := by
  induction claims generalizing seen with
  | nil => simp [removeDupAux]
  | cons d rest ih =>
    have hfind : (d :: rest).find? (fun e => e.id == c.id) =
        if (d.id == c.id) = true then some d
        else rest.find? (fun e => e.id == c.id) := by
      by_cases hid : (d.id == c.id) = true
      · simp [List.find?_cons, hid]
      · simp only [List.find?_cons, if_neg hid]
        rw [Bool.not_eq_true] at hid
        rw [hid]
    rw [hfind]
    by_cases hid : (d.id == c.id) = true
    · rw [if_pos hid]
      have hid' : d.id = c.id := by simpa using hid
      by_cases h : d.id ∈ seen
      · simp only [removeDupAux, if_pos h, ih seen]
        constructor
        · rintro ⟨hns, -⟩
          exact absurd (hid' ▸ h) hns
        · rintro ⟨hns, heq⟩
          obtain rfl : d = c := Option.some.inj heq
          exact absurd (hid' ▸ h) hns
      · simp only [removeDupAux, if_neg h, List.mem_cons, ih (d.id :: seen)]
        constructor
        · rintro (rfl | ⟨hns, -⟩)
          · exact ⟨hid' ▸ h, rfl⟩
          · exfalso
            apply hns
            rw [hid']
            exact Or.inl rfl
        · rintro ⟨hns, heq⟩
          exact Or.inl (Option.some.inj heq).symm
    · rw [if_neg hid]
      have hid' : d.id ≠ c.id := by simpa using hid
      by_cases h : d.id ∈ seen
      · simp only [removeDupAux, if_pos h, ih seen]
      · simp only [removeDupAux, if_neg h, List.mem_cons, ih (d.id :: seen)]
        constructor
        · rintro (rfl | ⟨hns, hf⟩)
          · exact absurd rfl hid'
          · refine ⟨fun hmem => hns (Or.inr hmem), hf⟩
        · rintro ⟨hns, hf⟩
          refine Or.inr ⟨?_, hf⟩
          rintro (h1 | h1)
          · exact hid' h1.symm
          · exact hns h1

theorem removeDupAux_nodup (seen : List String) (claims : List Claim) :
    ((removeDupAux seen claims).map (·.id)).Nodup ∧
      ∀ c ∈ removeDupAux seen claims, c.id ∉ seen := by
  induction claims generalizing seen with
  | nil => simp [removeDupAux]
  | cons d rest ih =>
    by_cases h : d.id ∈ seen
    · simpa [removeDupAux, if_pos h] using ih seen
    · obtain ⟨hnd, hni⟩ := ih (d.id :: seen)
      simp only [removeDupAux, if_neg h, List.map_cons, List.nodup_cons]
      refine ⟨⟨?_, hnd⟩, ?_⟩
      · intro hmem
        obtain ⟨c, hc, hcid⟩ := List.mem_map.mp hmem
        exact hni c hc (by simp [hcid])
      · intro c hc
        rcases List.mem_cons.mp hc with rfl | hc
        · exact h
        · intro hcs
          exact hni c hc (List.mem_cons_of_mem _ hcs)

theorem removeDupAux_fixed (seen : List String) (claims : List Claim)
    (hn : (claims.map (·.id)).Nodup) (hd : ∀ c ∈ claims, c.id ∉ seen) :
    removeDupAux seen claims = claims := by
  induction claims generalizing seen with
  | nil => rfl
  | cons d rest ih =>
    have hds : d.id ∉ seen := hd d (List.mem_cons_self d rest)
    simp only [removeDupAux, if_neg hds]
    congr 1
    simp only [List.map_cons, List.nodup_cons] at hn
    refine ih (d.id :: seen) hn.2 ?_
    intro c hc hcs
    rcases List.mem_cons.mp hcs with h1 | h1
    · exact hn.1 (h1 ▸ List.mem_map_of_mem (·.id) hc)
    · exact hd c (List.mem_cons_of_mem _ hc) h1

theorem remove_duplicate_claims_idem (claims : List Claim) :
    remove_duplicate_claims (remove_duplicate_claims claims) =
      remove_duplicate_claims claims := by
  unfold remove_duplicate_claims
  exact removeDupAux_fixed [] _ (removeDupAux_nodup [] claims).1 (by simp)

theorem removeDupAux_id_mem (seen : List String) (claims : List Claim) (i : String) :
    i ∈ (removeDupAux seen claims).map (·.id) ↔
      i ∉ seen ∧ i ∈ claims.map (·.id) := by
  induction claims generalizing seen with
  | nil => simp [removeDupAux]
  | cons d rest ih =>
    by_cases h : d.id ∈ seen
    · simp only [removeDupAux, if_pos h, ih seen, List.map_cons, List.mem_cons]
      constructor
      · rintro ⟨hns, hmem⟩
        exact ⟨hns, Or.inr hmem⟩
      · rintro ⟨hns, hmem | hmem⟩
        · exact absurd (hmem ▸ h) hns
        · exact ⟨hns, hmem⟩
    · simp only [removeDupAux, if_neg h, List.map_cons, List.mem_cons, ih (d.id :: seen)]
      constructor
      · rintro (rfl | ⟨hns, hmem⟩)
        · exact ⟨h, Or.inl rfl⟩
        · exact ⟨fun hs => hns (Or.inr hs), Or.inr hmem⟩
      · rintro ⟨hns, rfl | hmem⟩
        · exact Or.inl rfl
        · by_cases hdi : i = d.id
          · exact Or.inl hdi
          · exact Or.inr ⟨fun hor => hor.elim hdi hns, hmem⟩

/-! ## `utils.is_valid_timestamp`: CPython `datetime.strptime` with format
`%Y-%m-%dT%H:%M:%S`.

CPython's `_strptime` compiles the format into a regular expression
(`%Y` = 4 digits; `%m` = `1[0-2]|0[1-9]|[1-9]`; `%d` =
`3[01]|[12]\d|0[1-9]|[1-9]`; `%H` = `2[0-3]|[0-1]\d|\d`; `%M` = `[0-5]\d|\d`;
`%S` = `6[0-1]|[0-5]\d|\d`; literals escaped, compiled case-insensitively so
the literal `T` also matches `t`), requires the whole string to be consumed,
and then builds a `datetime`, which raises `ValueError` for an invalid
calendar date or a second outside `0..59`.  Because each numeric directive is
followed by a non-digit literal (or the end of the string), the regex match
forces every directive to consume a maximal digit run, so the parse is
modelled by splitting maximal digit runs and checking each run against the
directive's alternatives. -/

/-- Split a character list into its maximal leading digit run and the rest. -/
def splitDigits : List Char → List Char × List Char
  | [] => ([], [])
  | c :: cs =>
    if c.isDigit then
      let p := splitDigits cs
      (c :: p.1, p.2)
    else ([], c :: cs)

/-- Numeric value of a digit run. -/
def digitsVal (run : List Char) : ℕ :=
  run.foldl (fun a c => 10 * a + (c.toNat - 48)) 0

/-- The `%m` directive `1[0-2]|0[1-9]|[1-9]` applied to a maximal digit run:
two digits in `01..12`, or one nonzero digit. -/
def monthRunOk (run : List Char) : Bool :=
  (run.length == 2 && decide (1 ≤ digitsVal run) && decide (digitsVal run ≤ 12)) ||
  (run.length == 1 && decide (1 ≤ digitsVal run))

/-- The `%d` directive `3[01]|[12]\d|0[1-9]|[1-9]`: two digits in `01..31`,
or one nonzero digit. -/
def dayRunOk (run : List Char) : Bool :=
  (run.length == 2 && decide (1 ≤ digitsVal run) && decide (digitsVal run ≤ 31)) ||
  (run.length == 1 && decide (1 ≤ digitsVal run))

/-- The `%H` directive `2[0-3]|[0-1]\d|\d`: two digits in `00..23`, or any
single digit. -/
def hourRunOk (run : List Char) : Bool :=
  (run.length == 2 && decide (digitsVal run ≤ 23)) || run.length == 1

/-- The `%M` directive `[0-5]\d|\d`: two digits in `00..59`, or any single
digit. -/
def minuteRunOk (run : List Char) : Bool :=
  (run.length == 2 && decide (digitsVal run ≤ 59)) || run.length == 1

/-- The `%S` directive `6[0-1]|[0-5]\d|\d`: two digits in `00..61` (leap
seconds match the regex), or any single digit. -/
def secondRunOk (run : List Char) : Bool :=
  (run.length == 2 && decide (digitsVal run ≤ 61)) || run.length == 1

/-- The fields recovered by a successful `strptime` match. -/
structure TsFields where
  year : ℕ
  month : ℕ
  day : ℕ
  hour : ℕ
  minute : ℕ
  second : ℕ
  deriving Repr, DecidableEq

/-- The regex phase of `datetime.strptime(value, "%Y-%m-%dT%H:%M:%S")`. -/
def strptimeTs (cs : List Char) : Option TsFields :=
  let yr := (splitDigits cs).1
  let r1 := (splitDigits cs).2
  if yr.length = 4 then
    match r1 with
    | '-' :: r2 =>
      let mo := (splitDigits r2).1
      let r3 := (splitDigits r2).2
      if monthRunOk mo then
        match r3 with
        | '-' :: r4 =>
          let dy := (splitDigits r4).1
          let r5 := (splitDigits r4).2
          if dayRunOk dy then
            match r5 with
            | t :: r6 =>
              if t = 'T' ∨ t = 't' then
                let hr := (splitDigits r6).1
                let r7 := (splitDigits r6).2
                if hourRunOk hr then
                  match r7 with
                  | ':' :: r8 =>
                    let mi := (splitDigits r8).1
                    let r9 := (splitDigits r8).2
                    if minuteRunOk mi then
                      match r9 with
                      | ':' :: r10 =>
                        let se := (splitDigits r10).1
                        let r11 := (splitDigits r10).2
                        if secondRunOk se ∧ r11 = [] then
                          some ⟨digitsVal yr, digitsVal mo, digitsVal dy,
                                digitsVal hr, digitsVal mi, digitsVal se⟩
                        else none
                      | _ => none
                    else none
                  | _ => none
                else none
              else none
            | _ => none
          else none
        | _ => none
      else none
    | _ => none
  else none

/-- Gregorian leap year, as in `datetime`. -/
def isLeapYear (y : ℕ) : Bool :=
  (y % 4 == 0 && y % 100 != 0) || y % 400 == 0

/-- Days in a month, as in `datetime`. -/
def daysInMonth (y m : ℕ) : ℕ :=
  if m = 2 then (if isLeapYear y then 29 else 28)
  else if m = 4 ∨ m = 6 ∨ m = 9 ∨ m = 11 then 30
  else 31

/-- The `datetime(...)` constructor's range checks (`ValueError` otherwise). -/
def datetimeOk (f : TsFields) : Bool :=
  decide (1 ≤ f.year) && decide (f.year ≤ 9999) &&
  decide (1 ≤ f.month) && decide (f.month ≤ 12) &&
  decide (1 ≤ f.day) && decide (f.day ≤ daysInMonth f.year f.month) &&
  decide (f.hour ≤ 23) && decide (f.minute ≤ 59) && decide (f.second ≤ 59)

/-- Embeds `utils.is_valid_timestamp`: `strptime` succeeds (regex match plus a
constructible `datetime`); any `ValueError` is caught and yields `False`. -/
def is_valid_timestamp (s : String) : Bool :=
  match strptimeTs s.toList with
  | none => false
  | some f => datetimeOk f

/-! ## `utils.is_valid_uuid`: CPython's `uuid.UUID(value)` on a string.

`UUID.__init__` normalises the string (`hex.replace('urn:', '')
.replace('uuid:', '').strip('{}').replace('-', '')`), requires exactly 32
remaining characters, and converts them with `int(hex, 16)`, which tolerates
surrounding whitespace, an optional sign, an optional `0x`/`0X` prefix and
single underscores between hex digits.  `is_valid_uuid` catches the
`ValueError` raised on failure. Whitespace is modelled as the ASCII
whitespace characters. -/

/-- ASCII whitespace stripped by Python's `int(str, base)`. -/
def pyWhitespace (c : Char) : Bool :=
  c = ' ' || c = '\t' || c = '\n' || c = '\r' || c = '\x0b' || c = '\x0c'

/-- Hexadecimal digit. -/
def isHexDigit (c : Char) : Bool :=
  c.isDigit || ('a' ≤ c && c ≤ 'f') || ('A' ≤ c && c ≤ 'F')

/-- Tail of a hex digit sequence: digits with single interior underscores. -/
def hexTail : List Char → Bool
  | [] => true
  | '_' :: c :: rest => isHexDigit c && hexTail rest
  | '_' :: [] => false
  | c :: rest => isHexDigit c && hexTail rest

/-- Nonempty hex digit sequence with single interior underscores. -/
def hexRunOk : List Char → Bool
  | [] => false
  | '_' :: _ => false
  | c :: rest => isHexDigit c && hexTail rest

/-- Does `int(s, 16)` succeed in Python? -/
def pyIntBase16Ok (cs0 : List Char) : Bool :=
  let cs := ((cs0.dropWhile pyWhitespace).reverse.dropWhile pyWhitespace).reverse
  let cs2 := match cs with
    | '+' :: rest => rest
    | '-' :: rest => rest
    | _ => cs
  match cs2 with
  | '0' :: x :: rest =>
    if x = 'x' ∨ x = 'X' then
      match rest with
      | '_' :: rest2 => hexRunOk rest2
      | _ => hexRunOk rest
    else hexRunOk cs2
  | _ => hexRunOk cs2

/-- Python `str.strip('{}')`: remove leading and trailing braces. -/
def stripBraces (cs : List Char) : List Char :=
  ((cs.dropWhile (fun c => c = '{' || c = '}')).reverse.dropWhile
    (fun c => c = '{' || c = '}')).reverse

/-- Worker for `removeSubstr`; the fuel argument (one unit per consumed
character) only serves to make the recursion structural, and never runs out
when the pattern is nonempty. -/
def removeSubstrAux (pat : List Char) : ℕ → List Char → List Char
  | _, [] => []
  | 0, cs => cs
  | fuel + 1, c :: rest =>
    if pat.isPrefixOf (c :: rest) then
      removeSubstrAux pat fuel ((c :: rest).drop pat.length)
    else c :: removeSubstrAux pat fuel rest

/-- Python `s.replace(old, '')` for a nonempty `old`: scan left to right,
removing each non-overlapping occurrence of the pattern. -/
def removeSubstr (pat cs : List Char) : List Char :=
  removeSubstrAux pat cs.length cs

/-- Embeds `utils.is_valid_uuid` on a string argument:
`hex.replace('urn:', '').replace('uuid:', '').strip('{}').replace('-', '')`,
then exactly 32 characters accepted by `int(hex, 16)`. -/
def is_valid_uuid (s : String) : Bool :=
  let h1 := removeSubstr "uuid:".toList (removeSubstr "urn:".toList s.toList)
  let h2 := stripBraces h1
  let h3 := removeSubstr "-".toList h2
  h3.length == 32 && pyIntBase16Ok h3

/-! ## `load_and_clean_claims.validate_claim_record` and
`load_and_clean_reverts.validate_revert_record` -/

/-- A value of the claims schema dict: the Python types `str`, `int`,
`float`, or the string `'timestamp'`. -/
inductive FieldTy where
  | str
  | int
  | float
  | timestamp
  deriving Repr, DecidableEq

/-- The `claims_schema` dict of `load_and_validate_json_data`, in insertion
order (Python dicts iterate in insertion order). -/
def claims_schema : List (String × FieldTy) :=
  [("id", .str), ("ndc", .str), ("npi", .str),
   ("quantity", .int), ("price", .float), ("timestamp", .timestamp)]

/-- Applies `is_valid_timestamp(value)` to an arbitrary value: `strptime` raises
`TypeError` on a non-string, and `is_valid_timestamp` only catches
`ValueError`, so the `TypeError` propagates. -/
def pyIsValidTimestampVal : PyVal → Except PyErr Bool
  | .str s => .ok (is_valid_timestamp s)
  | _ => .error .typeError

/-- Applies `is_valid_uuid(value)` to an arbitrary value: `hex.replace` on a
non-string raises `AttributeError`, which `is_valid_uuid` does not catch. -/
def pyIsValidUuidVal : PyVal → Except PyErr Bool
  | .str s => .ok (is_valid_uuid s)
  | _ => .error .attributeError

/-- Python `value < 0`: numeric for `int`/`float`/`bool` (`False` is `0`,
`True` is `1`, so neither is negative); `TypeError` otherwise. -/
def pyLtZero : PyVal → Except PyErr Bool
  | .int n => .ok (decide (n < 0))
  | .float q => .ok (decide (q < 0))
  | .bool _ => .ok false
  | _ => .error .typeError

/-- Python `isinstance(value, int)`; a `bool` is a subclass of `int`. -/
def isInstInt : PyVal → Bool
  | .int _ => true
  | .bool _ => true
  | _ => false

/-- Python `isinstance(value, float) and value.is_integer()`. -/
def floatIsIntegerCheck : PyVal → Bool
  | .float q => q.den == 1
  | _ => false

/-- The integer-field acceptance test of `validate_claim_record`:
`isinstance(value, int) or (isinstance(value, float) and value.is_integer())`. -/
def intFieldOk (v : PyVal) : Bool :=
  isInstInt v || floatIsIntegerCheck v

/-- Python `value <= 0` for a value that already passed `intFieldOk`. -/
def pyNumLeZero : PyVal → Bool
  | .int n => decide (n ≤ 0)
  | .float q => decide (q ≤ 0)
  | .bool b => !b
  | _ => false

/-- Python `isinstance(value, expected_type)` for the schema types reaching the
final branch (`str` and `float`; `int` and `timestamp` are handled by the
earlier branches). -/
def isInst : PyVal → FieldTy → Bool
  | .str _, .str => true
  | .int _, .int => true
  | .bool _, .int => true
  | .float _, .float => true
  | _, _ => false

/-- The branch cascade applied by `validate_claim_record` to one present
field (`.ok true` = fall through without returning, `.ok false` =
`return False`, `.error` = an uncaught exception):
```
if expected_type == 'timestamp': if not is_valid_timestamp(value): return False
elif key == 'price' and value < 0: return False
elif expected_type == int:
    if not (isinstance(value, int) or (isinstance(value, float) and value.is_integer())): return False
    if key == 'quantity' and value <= 0: return False
elif not isinstance(value, expected_type): return False
```
-/
def checkFieldValue (key : String) (ty : FieldTy) (v : PyVal) : Except PyErr Bool :=
  match ty with
  | .timestamp => pyIsValidTimestampVal v
  | _ =>
    match (if key == "price" then pyLtZero v else .ok false) with
    | .error e => .error e
    | .ok true => .ok false
    | .ok false =>
      .ok (if ty = .int then
             if intFieldOk v then
               (if key == "quantity" && pyNumLeZero v then false else true)
             else false
           else isInst v ty)

/-- The `for key, expected_type in schema.items()` loop of
`validate_claim_record`: a missing key or a failed check returns `False`,
an exception propagates, otherwise the loop continues. -/
def validateFields : List (String × FieldTy) → PyDict → Except PyErr Bool
  | [], _ => .ok true
  | (key, ty) :: rest, data =>
    match pyLookup key data with
    | Option.none => .ok false
    | Option.some v =>
      match checkFieldValue key ty v with
      | .error e => .error e
      | .ok false => .ok false
      | .ok true => validateFields rest data

/-- Embeds `load_and_clean_claims.validate_claim_record(data, claims_schema)`.
The function has no `try`/`except`, so exceptions raised inside it
propagate to the caller (modelled by `.error`). -/
def validate_claim_record (data : PyDict) : Except PyErr Bool :=
  validateFields claims_schema data

/-- The body of `load_and_clean_reverts.validate_revert_record` inside its
`try` block: presence of `id`, `claim_id`, `timestamp`, then UUID checks on
`id` and `claim_id`, then the timestamp check. -/
def validateRevertInner (record : PyDict) : Except PyErr Bool :=
  match pyLookup "id" record, pyLookup "claim_id" record,
        pyLookup "timestamp" record with
  | Option.some vid, Option.some vcl, Option.some vts =>
    (match pyIsValidUuidVal vid with
     | .error e => .error e
     | .ok false => .ok false
     | .ok true =>
       match pyIsValidUuidVal vcl with
       | .error e => .error e
       | .ok false => .ok false
       | .ok true => pyIsValidTimestampVal vts)
  | _, _, _ => .ok false

/-- Embeds `load_and_clean_reverts.validate_revert_record`: the surrounding
`except Exception` turns any exception into `False`. -/
def validate_revert_record (record : PyDict) : Bool :=
  match validateRevertInner record with
  | .ok b => b
  | .error _ => false

/-! ## Claim C7: the cross-reference filters -/

/-- List `contains` agrees with propositional membership. -/
theorem contains_eq_decide_mem (l : List String) (x : String) :
    l.contains x = decide (x ∈ l) := by
  by_cases h : x ∈ l <;> simp [h]

/-- C7: `filterClaims` returns exactly the subsequence of the input claims
whose provider identifier is in the set of pharmacy provider identifiers
(in original relative order, retained records unchanged), and
`filterReverts` returns exactly the subsequence of reverts whose
referencing claim identifier is in the set of claim identifiers. -/
theorem filters_keep_exactly_matching_records (claims : List Claim)
    (pharmacies : List Pharmacy) (reverts : List Revert) :
    (filter_claims_by_pharmacies claims pharmacies).Sublist claims ∧
    filter_claims_by_pharmacies claims pharmacies =
      claims.filter (fun c => decide (c.npi ∈ pharmacies.map Pharmacy.npi)) ∧
    (filter_reverts_by_claims reverts claims).Sublist reverts ∧
    filter_reverts_by_claims reverts claims =
      reverts.filter (fun r => decide (r.claim_id ∈ claims.map Claim.id)) := by
  refine ⟨List.filter_sublist _, ?_, List.filter_sublist _, ?_⟩
  · unfold filter_claims_by_pharmacies
    exact List.filter_congr fun c _ => contains_eq_decide_mem _ _
  · unfold filter_reverts_by_claims
    exact List.filter_congr fun r _ => contains_eq_decide_mem _ _

/-! ## Claim C8: deduplication -/

/-- C8: `dedupe` keeps exactly the first occurrence of each distinct claim
identifier in input order — its output has pairwise-distinct identifiers, is
a subsequence of the input, and a claim is in the output exactly when it is
the first input element carrying its identifier — and `dedupe` is
idempotent. -/
theorem remove_duplicate_claims_spec (claims : List Claim) :
    ((remove_duplicate_claims claims).map (·.id)).Nodup ∧
    (remove_duplicate_claims claims).Sublist claims ∧
    (∀ c : Claim, c ∈ remove_duplicate_claims claims ↔
      claims.find? (fun d => d.id == c.id) = some c) ∧
    remove_duplicate_claims (remove_duplicate_claims claims) =
      remove_duplicate_claims claims := by
  refine ⟨(removeDupAux_nodup [] claims).1, removeDupAux_sublist [] claims,
    ?_, remove_duplicate_claims_idem claims⟩
  intro c
  rw [remove_duplicate_claims, removeDupAux_mem_iff]
  simp

/-! ## Claim C10: deduplication preserves the id set, so filtering reverts
against the filtered-but-not-deduplicated claims (as `main` does) equals
filtering them against the deduplicated claims -/

/-- C10: the set of claim ids survives `dedupe`, hence
`filterReverts(rs, xs) = filterReverts(rs, dedupe(xs))`. -/
theorem dedupe_preserves_id_set_and_revert_filter (reverts : List Revert)
    (claims : List Claim) :
    (∀ i : String,
      i ∈ (remove_duplicate_claims claims).map (·.id) ↔ i ∈ claims.map (·.id)) ∧
    filter_reverts_by_claims reverts claims =
      filter_reverts_by_claims reverts (remove_duplicate_claims claims) := by
  have hmem : ∀ i : String,
      i ∈ (remove_duplicate_claims claims).map (·.id) ↔ i ∈ claims.map (·.id) := by
    intro i
    rw [remove_duplicate_claims, removeDupAux_id_mem]
    simp
  refine ⟨hmem, ?_⟩
  unfold filter_reverts_by_claims
  refine List.filter_congr fun r _ => ?_
  rw [contains_eq_decide_mem, contains_eq_decide_mem]
  have h := hmem r.claim_id
  by_cases hin : r.claim_id ∈ claims.map (·.id)
  · simp [hin, h.mpr hin]
  · have hd : r.claim_id ∉ (remove_duplicate_claims claims).map (·.id) :=
      fun hx => hin (h.mp hx)
    rw [decide_eq_false hin, decide_eq_false hd]

/-! ## Claim C4: totality of claim validation -/

/-- The failing input for C4: a claim record whose `price` is the string
`"abc"` — the branch `key == 'price' and value < 0` evaluates
`'abc' < 0`, which raises `TypeError` (there is no `try` in
`validate_claim_record`). -/
def c4_failing_record : PyDict :=
  [("id", .str "claim-1"), ("ndc", .str "00000000000"), ("npi", .str "0000000000"),
   ("quantity", .int 1), ("price", .str "abc"),
   ("timestamp", .str "2024-01-02T03:04:05")]

/-- C4 is false of the code: on a record whose price field is not a number,
`validate_claim_record` raises `TypeError` instead of returning a pass/fail
result. -/
theorem validate_claim_record_raises_on_string_price :
    validate_claim_record c4_failing_record = .error .typeError := rfl

/-! ## Claim C5: integer-typed fields, quantity positivity, valid claims -/

/-- Unfolding equation for one schema field. -/
theorem validateFields_step (key : String) (ty : FieldTy)
    (rest : List (String × FieldTy)) (data : PyDict) :
    validateFields ((key, ty) :: rest) data =
      match pyLookup key data with
      | Option.none => .ok false
      | Option.some v =>
        match checkFieldValue key ty v with
        | .error e => .error e
        | .ok false => .ok false
        | .ok true => validateFields rest data := rfl

/-- A string-typed field other than `price` can only fall through or return
`False`: its check is the final `isinstance` test. -/
theorem checkFieldValue_str_eval (key : String) (hk : (key == "price") = false)
    (v : PyVal) : checkFieldValue key .str v = .ok (isInst v .str) := by
  simp [checkFieldValue, hk]

/-- A missing field returns `False`. -/
theorem validate_field_missing {key : String} {ty : FieldTy}
    {rest : List (String × FieldTy)} {data : PyDict}
    (hv : pyLookup key data = Option.none) :
    validateFields ((key, ty) :: rest) data = .ok false := by
  simp only [validateFields_step, hv]

/-- A field whose check falls through lets the loop continue. -/
theorem validate_field_some_true {key : String} {ty : FieldTy}
    {rest : List (String × FieldTy)} {data : PyDict} {v : PyVal}
    (hv : pyLookup key data = some v)
    (hc : checkFieldValue key ty v = .ok true) :
    validateFields ((key, ty) :: rest) data = validateFields rest data := by
  simp only [validateFields_step, hv, hc]

/-- A field whose check returns `False` makes validation return `False`. -/
theorem validate_field_some_false {key : String} {ty : FieldTy}
    {rest : List (String × FieldTy)} {data : PyDict} {v : PyVal}
    (hv : pyLookup key data = some v)
    (hc : checkFieldValue key ty v = .ok false) :
    validateFields ((key, ty) :: rest) data = .ok false := by
  simp only [validateFields_step, hv, hc]

/-- If the quantity field is present and its branch returns `False`, the
whole validation returns `False`: the three earlier fields are string-typed,
so they either fall through or themselves return `False`, and `price` is
only examined after `quantity`. -/
theorem validate_quantity_fail (data : PyDict) (v : PyVal)
    (hq : pyLookup "quantity" data = some v)
    (hchk : checkFieldValue "quantity" .int v = .ok false) :
    validate_claim_record data = .ok false := by
  unfold validate_claim_record claims_schema
  cases h1 : pyLookup "id" data with
  | none => exact validate_field_missing h1
  | some v1 =>
    cases hb1 : isInst v1 .str
    · exact validate_field_some_false h1
        (by rw [checkFieldValue_str_eval "id" rfl, hb1])
    · rw [validate_field_some_true h1
        (by rw [checkFieldValue_str_eval "id" rfl, hb1])]
      cases h2 : pyLookup "ndc" data with
      | none => exact validate_field_missing h2
      | some v2 =>
        cases hb2 : isInst v2 .str
        · exact validate_field_some_false h2
            (by rw [checkFieldValue_str_eval "ndc" rfl, hb2])
        · rw [validate_field_some_true h2
            (by rw [checkFieldValue_str_eval "ndc" rfl, hb2])]
          cases h3 : pyLookup "npi" data with
          | none => exact validate_field_missing h3
          | some v3 =>
            cases hb3 : isInst v3 .str
            · exact validate_field_some_false h3
                (by rw [checkFieldValue_str_eval "npi" rfl, hb3])
            · rw [validate_field_some_true h3
                (by rw [checkFieldValue_str_eval "npi" rfl, hb3])]
              exact validate_field_some_false hq hchk

/-- The integer-field branch rejects a value that is neither an `int` nor an
integral `float`. -/
theorem checkFieldValue_quantity_not_integral (v : PyVal)
    (hv : intFieldOk v = false) :
    checkFieldValue "quantity" .int v = .ok false := by
  simp [checkFieldValue, hv]

/-- The quantity branch rejects a well-typed value that is `<= 0`. -/
theorem checkFieldValue_quantity_nonpositive (v : PyVal)
    (hv : intFieldOk v = true) (hle : pyNumLeZero v = true) :
    checkFieldValue "quantity" .int v = .ok false := by
  simp [checkFieldValue, hv, hle]

/-- The quantity branch accepts a positive `int`. -/
theorem checkFieldValue_quantity_int_pos (n : ℤ) (h : 0 < n) :
    checkFieldValue "quantity" .int (.int n) = .ok true := by
  simp [checkFieldValue, intFieldOk, isInstInt, pyNumLeZero, h.not_le]

/-- The quantity branch accepts a positive integral `float`. -/
theorem checkFieldValue_quantity_float_pos (q : ℚ) (hden : q.den = 1)
    (h : 0 < q) : checkFieldValue "quantity" .int (.float q) = .ok true := by
  simp [checkFieldValue, intFieldOk, isInstInt, floatIsIntegerCheck, hden,
    pyNumLeZero, h.not_le]

/-- The price branch accepts a non-negative `float`. -/
theorem checkFieldValue_price_nonneg (q : ℚ) (h : 0 ≤ q) :
    checkFieldValue "price" .float (.float q) = .ok true := by
  simp [checkFieldValue, pyLtZero, not_lt.mpr h, isInst]

/-- The timestamp branch accepts a string that `is_valid_timestamp`
accepts. -/
theorem checkFieldValue_timestamp_ok (s : String)
    (h : is_valid_timestamp s = true) :
    checkFieldValue "timestamp" .timestamp (.str s) = .ok true := by
  simp [checkFieldValue, pyIsValidTimestampVal, h]

/-- A string-typed field other than `price` accepts a string value. -/
theorem checkFieldValue_str_ok (key : String) (hk : (key == "price") = false)
    (s : String) : checkFieldValue key .str (.str s) = .ok true := by
  rw [checkFieldValue_str_eval key hk]
  rfl

/-- Spec-side description of a valid claim record (§3 of the spec): string
`id`/`ndc`/`npi`, a strictly positive integral quantity (an `int` or a
`float` with zero fractional part), a non-negative `float` price, and a
timestamp string accepted by the timestamp validator. -/
def ValidClaimDict (data : PyDict) : Prop :=
  (∃ s, pyLookup "id" data = some (.str s)) ∧
  (∃ s, pyLookup "ndc" data = some (.str s)) ∧
  (∃ s, pyLookup "npi" data = some (.str s)) ∧
  ((∃ n : ℤ, 0 < n ∧ pyLookup "quantity" data = some (.int n)) ∨
   (∃ q : ℚ, 0 < q ∧ q.den = 1 ∧ pyLookup "quantity" data = some (.float q))) ∧
  (∃ q : ℚ, 0 ≤ q ∧ pyLookup "price" data = some (.float q)) ∧
  (∃ s, is_valid_timestamp s = true ∧ pyLookup "timestamp" data = some (.str s))

/-- Every valid claim record passes validation. -/
theorem validate_valid_claim (data : PyDict) (h : ValidClaimDict data) :
    validate_claim_record data = .ok true := by
  obtain ⟨⟨s1, h1⟩, ⟨s2, h2⟩, ⟨s3, h3⟩, hq, ⟨p, hp0, hp⟩, ⟨ts, hts0, hts⟩⟩ := h
  unfold validate_claim_record claims_schema
  rw [validate_field_some_true h1 (checkFieldValue_str_ok "id" rfl s1),
      validate_field_some_true h2 (checkFieldValue_str_ok "ndc" rfl s2),
      validate_field_some_true h3 (checkFieldValue_str_ok "npi" rfl s3)]
  rcases hq with ⟨n, hn0, hn⟩ | ⟨q, hq0, hqden, hqq⟩
  · rw [validate_field_some_true hn (checkFieldValue_quantity_int_pos n hn0),
        validate_field_some_true hp (checkFieldValue_price_nonneg p hp0),
        validate_field_some_true hts (checkFieldValue_timestamp_ok ts hts0)]
    rfl
  · rw [validate_field_some_true hqq
          (checkFieldValue_quantity_float_pos q hqden hq0),
        validate_field_some_true hp (checkFieldValue_price_nonneg p hp0),
        validate_field_some_true hts (checkFieldValue_timestamp_ok ts hts0)]
    rfl

/-- C5: the integer-typed field (`quantity` is the schema's integer field)
accepts an integer or a decimal with zero fractional part and rejects any
non-integral value; a record whose quantity is `<= 0` fails validation even
when well-typed; and every valid claim passes validation. -/
theorem integer_field_and_quantity_validation :
    (∀ (data : PyDict) (v : PyVal), pyLookup "quantity" data = some v →
       intFieldOk v = false → validate_claim_record data = .ok false) ∧
    (∀ (data : PyDict) (v : PyVal), pyLookup "quantity" data = some v →
       intFieldOk v = true → pyNumLeZero v = true →
       validate_claim_record data = .ok false) ∧
    (∀ data : PyDict, ValidClaimDict data → validate_claim_record data = .ok true) := by
  refine ⟨?_, ?_, validate_valid_claim⟩
  · intro data v hqv hbad
    exact validate_quantity_fail data v hqv
      (checkFieldValue_quantity_not_integral v hbad)
  · intro data v hqv hok hle
    exact validate_quantity_fail data v hqv
      (checkFieldValue_quantity_nonpositive v hok hle)

/-- A record with a non-integral quantity, used in the C5 witness. -/
def c5_record_fractional : PyDict :=
  [("id", .str "a"), ("ndc", .str "n"), ("npi", .str "p"),
   ("quantity", .float (mkRat 5 2)), ("price", .float 10),
   ("timestamp", .str "2024-01-02T03:04:05")]

/-- A well-typed record with quantity 0, used in the C5 witness. -/
def c5_record_zero_quantity : PyDict :=
  [("id", .str "a"), ("ndc", .str "n"), ("npi", .str "p"),
   ("quantity", .int 0), ("price", .float 10),
   ("timestamp", .str "2024-01-02T03:04:05")]

/-- A valid claim record, used in the C5 witness. -/
def c5_record_valid : PyDict :=
  [("id", .str "a"), ("ndc", .str "00000000000"), ("npi", .str "0000000000"),
   ("quantity", .int 2), ("price", .float 10),
   ("timestamp", .str "2024-01-02T03:04:05")]

/-- Witness for C5 at concrete records: a fractional quantity fails, a zero
quantity fails, a valid claim passes. -/
theorem integer_field_and_quantity_validation_witness :
    validate_claim_record c5_record_fractional = .ok false ∧
    validate_claim_record c5_record_zero_quantity = .ok false ∧
    validate_claim_record c5_record_valid = .ok true :=
  ⟨integer_field_and_quantity_validation.1 c5_record_fractional
      (.float (mkRat 5 2)) rfl (by decide),
   integer_field_and_quantity_validation.2.1 c5_record_zero_quantity
      (.int 0) rfl rfl rfl,
   integer_field_and_quantity_validation.2.2 c5_record_valid
      ⟨⟨"a", rfl⟩, ⟨"00000000000", rfl⟩, ⟨"0000000000", rfl⟩,
       Or.inl ⟨2, by decide, rfl⟩, ⟨10, by norm_num, rfl⟩,
       ⟨"2024-01-02T03:04:05", by decide, rfl⟩⟩⟩

/-! ## Claim C3: identifier-token validation -/

/-- A claim record whose `id` is not a unique token, with every other field
valid. -/
def c3_malformed_id_claim : PyDict :=
  [("id", .str "not-a-token"), ("ndc", .str "00000000000"),
   ("npi", .str "0000000000"), ("quantity", .int 1), ("price", .float 10),
   ("timestamp", .str "2024-01-02T03:04:05")]

/-- The malformed-id claim record passes claim validation: the claims
schema only requires `id` to be a string. -/
theorem c3_malformed_id_claim_passes :
    validate_claim_record c3_malformed_id_claim = .ok true :=
  validate_valid_claim _
    ⟨⟨"not-a-token", rfl⟩, ⟨"00000000000", rfl⟩, ⟨"0000000000", rfl⟩,
     Or.inl ⟨1, by decide, rfl⟩, ⟨10, by norm_num, rfl⟩,
     ⟨"2024-01-02T03:04:05", by decide, rfl⟩⟩

/-- Counterexample to C3: a record whose claim id does not match the token
format nevertheless passes validation. -/
theorem malformed_claim_id_passes_validation :
    validate_claim_record c3_malformed_id_claim = .ok true ∧
    is_valid_uuid "not-a-token" = false :=
  ⟨c3_malformed_id_claim_passes, by decide⟩

/-- C3 amended: revert validation enforces the token parse on both the
revert id and the referencing claim id — every revert record that passes
validation carries two strings accepted by the UUID parser — while claim
validation enforces no token format on the claim id (a plain string
suffices). -/
theorem identifier_token_validation :
    (∀ record : PyDict, validate_revert_record record = true →
      ∃ si sc, pyLookup "id" record = some (.str si) ∧
        pyLookup "claim_id" record = some (.str sc) ∧
        is_valid_uuid si = true ∧ is_valid_uuid sc = true) ∧
    validate_claim_record c3_malformed_id_claim = .ok true := by
  refine ⟨?_, c3_malformed_id_claim_passes⟩
  intro record h
  unfold validate_revert_record validateRevertInner at h
  cases hid : pyLookup "id" record with
  | none => rw [hid] at h; simp at h
  | some vid =>
    cases hcl : pyLookup "claim_id" record with
    | none => rw [hid, hcl] at h; simp at h
    | some vcl =>
      cases hts : pyLookup "timestamp" record with
      | none => rw [hid, hcl, hts] at h; simp at h
      | some vts =>
        rw [hid, hcl, hts] at h
        cases vid with
        | int n => simp [pyIsValidUuidVal] at h
        | float q => simp [pyIsValidUuidVal] at h
        | bool b => simp [pyIsValidUuidVal] at h
        | none => simp [pyIsValidUuidVal] at h
        | revertDict r => simp [pyIsValidUuidVal] at h
        | str si =>
          cases hu1 : is_valid_uuid si with
          | false => simp [pyIsValidUuidVal, hu1] at h
          | true =>
            cases vcl with
            | int n => simp [pyIsValidUuidVal, hu1] at h
            | float q => simp [pyIsValidUuidVal, hu1] at h
            | bool b => simp [pyIsValidUuidVal, hu1] at h
            | none => simp [pyIsValidUuidVal, hu1] at h
            | revertDict r => simp [pyIsValidUuidVal, hu1] at h
            | str sc =>
              cases hu2 : is_valid_uuid sc with
              | false => simp [pyIsValidUuidVal, hu1, hu2] at h
              | true => exact ⟨si, sc, rfl, rfl, hu1, hu2⟩

/-- A passing revert record for the C3 witness. -/
def c3_valid_revert : PyDict :=
  [("id", .str "12345678-1234-5678-1234-567812345678"),
   ("claim_id", .str "87654321-4321-8765-4321-876543218765"),
   ("timestamp", .str "2024-01-02T03:04:05")]

/-- Witness for C3 at a concrete passing revert record. -/
theorem identifier_token_validation_witness :
    ∃ si sc, pyLookup "id" c3_valid_revert = some (.str si) ∧
      pyLookup "claim_id" c3_valid_revert = some (.str sc) ∧
      is_valid_uuid si = true ∧ is_valid_uuid sc = true :=
  identifier_token_validation.1 c3_valid_revert (by decide)

/-! ## Claim C6: timestamp format -/

theorem splitDigits_append_eq (cs : List Char) :
    (splitDigits cs).1 ++ (splitDigits cs).2 = cs := by
  induction cs with
  | nil => rfl
  | cons c rest ih =>
    by_cases hc : c.isDigit
    · simp [splitDigits, hc, ih]
    · simp [splitDigits, hc]

theorem splitDigits_fst_digits (cs : List Char) :
    ∀ c ∈ (splitDigits cs).1, c.isDigit = true := by
  induction cs with
  | nil => simp [splitDigits]
  | cons c rest ih =>
    by_cases hc : c.isDigit
    · intro x hx
      simp only [splitDigits, if_pos hc, List.mem_cons] at hx
      rcases hx with rfl | hx
      · exact hc
      · exact ih x hx
    · intro x hx
      simp [splitDigits, hc] at hx

theorem splitDigits_run_append (run rest : List Char)
    (hrun : ∀ c ∈ run, c.isDigit = true)
    (hrest : ∀ c, rest.head? = some c → c.isDigit = false) :
    splitDigits (run ++ rest) = (run, rest) := by
  induction run with
  | nil =>
    simp only [List.nil_append]
    cases rest with
    | nil => rfl
    | cons c r =>
      have hc := hrest c rfl
      simp [splitDigits, hc]
  | cons a run_tl ih =>
    have ha := hrun a (List.mem_cons_self _ _)
    simp [splitDigits, ha,
      ih (fun c hc => hrun c (List.mem_cons_of_mem _ hc))]

/-- The spec's canonical timestamp shape `YYYY-MM-DDTHH:MM:SS`: nineteen
characters, zero-padded two-digit fields, uppercase `T`, and field values
forming a real calendar date-time (this is the spec-side reading of
"parses as `YYYY-MM-DDTHH:MM:SS` exactly"). -/
def canonicalTimestampShape (s : String) : Bool :=
  match s.toList with
  | [y1, y2, y3, y4, a1, m1, m2, a2, d1, d2, a3, b1, b2, a4, n1, n2, a5, c1, c2] =>
    y1.isDigit && y2.isDigit && y3.isDigit && y4.isDigit &&
    m1.isDigit && m2.isDigit && d1.isDigit && d2.isDigit &&
    b1.isDigit && b2.isDigit && n1.isDigit && n2.isDigit &&
    c1.isDigit && c2.isDigit &&
    (a1 == '-') && (a2 == '-') && (a3 == 'T') && (a4 == ':') && (a5 == ':') &&
    decide (1 ≤ digitsVal [y1, y2, y3, y4]) &&
    decide (digitsVal [y1, y2, y3, y4] ≤ 9999) &&
    decide (1 ≤ digitsVal [m1, m2]) && decide (digitsVal [m1, m2] ≤ 12) &&
    decide (1 ≤ digitsVal [d1, d2]) &&
    decide (digitsVal [d1, d2] ≤
      daysInMonth (digitsVal [y1, y2, y3, y4]) (digitsVal [m1, m2])) &&
    decide (digitsVal [b1, b2] ≤ 23) && decide (digitsVal [n1, n2] ≤ 59) &&
    decide (digitsVal [c1, c2] ≤ 59)
  | _ => false

/-- A canonically shaped character list is accepted by the `strptime`
model. -/
theorem canonicalL_accepted (y1 y2 y3 y4 m1 m2 d1 d2 b1 b2 n1 n2 c1 c2 : Char)
    (hy1 : y1.isDigit = true) (hy2 : y2.isDigit = true)
    (hy3 : y3.isDigit = true) (hy4 : y4.isDigit = true)
    (hm1 : m1.isDigit = true) (hm2 : m2.isDigit = true)
    (hd1 : d1.isDigit = true) (hd2 : d2.isDigit = true)
    (hb1 : b1.isDigit = true) (hb2 : b2.isDigit = true)
    (hn1 : n1.isDigit = true) (hn2 : n2.isDigit = true)
    (hc1 : c1.isDigit = true) (hc2 : c2.isDigit = true)
    (hylo : 1 ≤ digitsVal [y1, y2, y3, y4])
    (hyhi : digitsVal [y1, y2, y3, y4] ≤ 9999)
    (hmlo : 1 ≤ digitsVal [m1, m2]) (hmhi : digitsVal [m1, m2] ≤ 12)
    (hdlo : 1 ≤ digitsVal [d1, d2])
    (hdhi : digitsVal [d1, d2] ≤
      daysInMonth (digitsVal [y1, y2, y3, y4]) (digitsVal [m1, m2]))
    (hbhi : digitsVal [b1, b2] ≤ 23) (hnhi : digitsVal [n1, n2] ≤ 59)
    (hchi : digitsVal [c1, c2] ≤ 59) :
    (match strptimeTs
        [y1, y2, y3, y4, '-', m1, m2, '-', d1, d2, 'T',
         b1, b2, ':', n1, n2, ':', c1, c2] with
     | Option.none => false
     | Option.some f => datetimeOk f) = true := by
  have e1 : splitDigits
      [y1, y2, y3, y4, '-', m1, m2, '-', d1, d2, 'T',
       b1, b2, ':', n1, n2, ':', c1, c2] =
      ([y1, y2, y3, y4],
       ['-', m1, m2, '-', d1, d2, 'T', b1, b2, ':', n1, n2, ':', c1, c2]) := by
    have h := splitDigits_run_append [y1, y2, y3, y4]
      ['-', m1, m2, '-', d1, d2, 'T', b1, b2, ':', n1, n2, ':', c1, c2]
      (by
        intro c hc
        simp only [List.mem_cons, List.not_mem_nil, or_false] at hc
        rcases hc with rfl | rfl | rfl | rfl
        exacts [hy1, hy2, hy3, hy4])
      (by
        intro c hc
        obtain rfl : '-' = c := by simpa using hc
        decide)
    simpa using h
  have e2 : splitDigits [m1, m2, '-', d1, d2, 'T', b1, b2, ':', n1, n2, ':', c1, c2] =
      ([m1, m2], ['-', d1, d2, 'T', b1, b2, ':', n1, n2, ':', c1, c2]) := by
    have h := splitDigits_run_append [m1, m2]
      ['-', d1, d2, 'T', b1, b2, ':', n1, n2, ':', c1, c2]
      (by
        intro c hc
        simp only [List.mem_cons, List.not_mem_nil, or_false] at hc
        rcases hc with rfl | rfl
        exacts [hm1, hm2])
      (by
        intro c hc
        obtain rfl : '-' = c := by simpa using hc
        decide)
    simpa using h
  have e3 : splitDigits [d1, d2, 'T', b1, b2, ':', n1, n2, ':', c1, c2] =
      ([d1, d2], ['T', b1, b2, ':', n1, n2, ':', c1, c2]) := by
    have h := splitDigits_run_append [d1, d2]
      ['T', b1, b2, ':', n1, n2, ':', c1, c2]
      (by
        intro c hc
        simp only [List.mem_cons, List.not_mem_nil, or_false] at hc
        rcases hc with rfl | rfl
        exacts [hd1, hd2])
      (by
        intro c hc
        obtain rfl : 'T' = c := by simpa using hc
        decide)
    simpa using h
  have e4 : splitDigits [b1, b2, ':', n1, n2, ':', c1, c2] =
      ([b1, b2], [':', n1, n2, ':', c1, c2]) := by
    have h := splitDigits_run_append [b1, b2] [':', n1, n2, ':', c1, c2]
      (by
        intro c hc
        simp only [List.mem_cons, List.not_mem_nil, or_false] at hc
        rcases hc with rfl | rfl
        exacts [hb1, hb2])
      (by
        intro c hc
        obtain rfl : ':' = c := by simpa using hc
        decide)
    simpa using h
  have e5 : splitDigits [n1, n2, ':', c1, c2] = ([n1, n2], [':', c1, c2]) := by
    have h := splitDigits_run_append [n1, n2] [':', c1, c2]
      (by
        intro c hc
        simp only [List.mem_cons, List.not_mem_nil, or_false] at hc
        rcases hc with rfl | rfl
        exacts [hn1, hn2])
      (by
        intro c hc
        obtain rfl : ':' = c := by simpa using hc
        decide)
    simpa using h
  have e6 : splitDigits [c1, c2] = ([c1, c2], []) := by
    have h := splitDigits_run_append [c1, c2] []
      (by
        intro c hc
        simp only [List.mem_cons, List.not_mem_nil, or_false] at hc
        rcases hc with rfl | rfl
        exacts [hc1, hc2])
      (by intro c hc; simp at hc)
    simpa using h
  have hmo : monthRunOk [m1, m2] = true := by
    simp [monthRunOk, hmlo, hmhi]
  have hd31 : daysInMonth (digitsVal [y1, y2, y3, y4]) (digitsVal [m1, m2]) ≤ 31 := by
    unfold daysInMonth
    split
    · split <;> omega
    · split <;> omega
  have hdy : dayRunOk [d1, d2] = true := by
    simp [dayRunOk, hdlo, le_trans hdhi hd31]
  have hhr : hourRunOk [b1, b2] = true := by
    simp [hourRunOk, hbhi]
  have hmi : minuteRunOk [n1, n2] = true := by
    simp [minuteRunOk, hnhi]
  have hse : secondRunOk [c1, c2] = true := by
    simp [secondRunOk]
    omega
  simp only [strptimeTs, e1, e2, e3, e4, e5, e6, hmo, hdy, hhr, hmi, hse]
  simp [datetimeOk, hylo, hyhi, hmlo, hmhi, hdlo, hdhi, hbhi, hnhi, hchi]

/-- Every canonically shaped timestamp string is accepted by
`is_valid_timestamp`. -/
theorem canonical_timestamp_accepted (s : String)
    (h : canonicalTimestampShape s = true) : is_valid_timestamp s = true := by
  unfold is_valid_timestamp
  unfold canonicalTimestampShape at h
  split at h
  case h_2 => simp at h
  case h_1 y1 y2 y3 y4 a1 m1 m2 a2 d1 d2 a3 b1 b2 a4 n1 n2 a5 c1 c2 heq =>
    simp only [Bool.and_eq_true, beq_iff_eq, decide_eq_true_eq] at h
    obtain ⟨h, hchi⟩ := h
    obtain ⟨h, hnhi⟩ := h
    obtain ⟨h, hbhi⟩ := h
    obtain ⟨h, hdhi⟩ := h
    obtain ⟨h, hdlo⟩ := h
    obtain ⟨h, hmhi⟩ := h
    obtain ⟨h, hmlo⟩ := h
    obtain ⟨h, hyhi⟩ := h
    obtain ⟨h, hylo⟩ := h
    obtain ⟨h, ha5⟩ := h
    obtain ⟨h, ha4⟩ := h
    obtain ⟨h, ha3⟩ := h
    obtain ⟨h, ha2⟩ := h
    obtain ⟨h, ha1⟩ := h
    obtain ⟨h, hc2⟩ := h
    obtain ⟨h, hc1⟩ := h
    obtain ⟨h, hn2⟩ := h
    obtain ⟨h, hn1⟩ := h
    obtain ⟨h, hb2⟩ := h
    obtain ⟨h, hb1⟩ := h
    obtain ⟨h, hd2⟩ := h
    obtain ⟨h, hd1⟩ := h
    obtain ⟨h, hm2⟩ := h
    obtain ⟨h, hm1⟩ := h
    obtain ⟨h, hy4⟩ := h
    obtain ⟨⟨hy1, hy2⟩, hy3⟩ := h
    subst ha1 ha2 ha3 ha4 ha5
    rw [heq]
    exact canonicalL_accepted y1 y2 y3 y4 m1 m2 d1 d2 b1 b2 n1 n2 c1 c2
      hy1 hy2 hy3 hy4 hm1 hm2 hd1 hd2 hb1 hb2 hn1 hn2 hc1 hc2
      hylo hyhi hmlo hmhi hdlo hdhi hbhi hnhi hchi

/-- Any character list accepted by the `strptime` model consists of digits
and the literal separators (with `t` accepted for `T` by the
case-insensitive regex). -/
theorem strptimeTs_chars (cs : List Char) (f : TsFields)
    (h : strptimeTs cs = some f) :
    ∀ c ∈ cs, c.isDigit = true ∨ c = '-' ∨ c = ':' ∨ c = 'T' ∨ c = 't' := by
  simp only [strptimeTs] at h
  split at h
  case isFalse => simp at h
  case isTrue hlen =>
  split at h
  case h_2 => simp at h
  case h_1 r2 heq1 =>
  split at h
  case isFalse => simp at h
  case isTrue hmo =>
  split at h
  case h_2 => simp at h
  case h_1 r4 heq2 =>
  split at h
  case isFalse => simp at h
  case isTrue hdy =>
  split at h
  case h_2 => simp at h
  case h_1 t r6 heq3 =>
  split at h
  case isFalse => simp at h
  case isTrue ht =>
  split at h
  case isFalse => simp at h
  case isTrue hhr =>
  split at h
  case h_2 => simp at h
  case h_1 r8 heq4 =>
  split at h
  case isFalse => simp at h
  case isTrue hmi =>
  split at h
  case h_2 => simp at h
  case h_1 r10 heq5 =>
  split at h
  case isFalse => simp at h
  case isTrue hfin =>
  intro c hc
  have h0 : cs = (splitDigits cs).1 ++ ('-' :: r2) := by
    rw [← heq1, splitDigits_append_eq]
  rw [h0] at hc
  rcases List.mem_append.mp hc with hc | hc
  · exact Or.inl (splitDigits_fst_digits cs c hc)
  rcases List.mem_cons.mp hc with rfl | hc
  · exact Or.inr (Or.inl rfl)
  have h1 : r2 = (splitDigits r2).1 ++ ('-' :: r4) := by
    rw [← heq2, splitDigits_append_eq]
  rw [h1] at hc
  rcases List.mem_append.mp hc with hc | hc
  · exact Or.inl (splitDigits_fst_digits r2 c hc)
  rcases List.mem_cons.mp hc with rfl | hc
  · exact Or.inr (Or.inl rfl)
  have h2 : r4 = (splitDigits r4).1 ++ (t :: r6) := by
    rw [← heq3, splitDigits_append_eq]
  rw [h2] at hc
  rcases List.mem_append.mp hc with hc | hc
  · exact Or.inl (splitDigits_fst_digits r4 c hc)
  rcases List.mem_cons.mp hc with rfl | hc
  · rcases ht with rfl | rfl
    · exact Or.inr (Or.inr (Or.inr (Or.inl rfl)))
    · exact Or.inr (Or.inr (Or.inr (Or.inr rfl)))
  have h3 : r6 = (splitDigits r6).1 ++ (':' :: r8) := by
    rw [← heq4, splitDigits_append_eq]
  rw [h3] at hc
  rcases List.mem_append.mp hc with hc | hc
  · exact Or.inl (splitDigits_fst_digits r6 c hc)
  rcases List.mem_cons.mp hc with rfl | hc
  · exact Or.inr (Or.inr (Or.inl rfl))
  have h4 : r8 = (splitDigits r8).1 ++ (':' :: r10) := by
    rw [← heq5, splitDigits_append_eq]
  rw [h4] at hc
  rcases List.mem_append.mp hc with hc | hc
  · exact Or.inl (splitDigits_fst_digits r8 c hc)
  rcases List.mem_cons.mp hc with rfl | hc
  · exact Or.inr (Or.inr (Or.inl rfl))
  have h5 : r10 = (splitDigits r10).1 ++ [] := by
    rw [← hfin.2, splitDigits_append_eq]
  rw [h5, List.append_nil] at hc
  exact Or.inl (splitDigits_fst_digits r10 c hc)

/-- Every string accepted by `is_valid_timestamp` consists of digits and
the literal separators. -/
theorem is_valid_timestamp_chars (s : String) (h : is_valid_timestamp s = true) :
    ∀ c ∈ s.toList, c.isDigit = true ∨ c = '-' ∨ c = ':' ∨ c = 'T' ∨ c = 't' := by
  unfold is_valid_timestamp at h
  cases hm : strptimeTs s.toList with
  | none => rw [hm] at h; simp at h
  | some f => exact strptimeTs_chars _ f hm

/-- Counterexample to C6: the string `2024-1-2T3:4:5` deviates from the
exact `YYYY-MM-DDTHH:MM:SS` shape (its fields are not zero-padded) yet the
timestamp validator accepts it. -/
theorem unpadded_timestamp_accepted :
    is_valid_timestamp "2024-1-2T3:4:5" = true ∧
    canonicalTimestampShape "2024-1-2T3:4:5" = false := by
  constructor <;> decide

/-- C6 amended: a timestamp field passes validation exactly when the string
matches CPython's lenient `strptime` pattern for `%Y-%m-%dT%H:%M:%S` and
forms a real date-time: every canonically shaped `YYYY-MM-DDTHH:MM:SS`
timestamp passes; every accepted string consists solely of digits and the
literal separators, so strings with timezone offsets (`+`), fractional
seconds (`.`), or any other foreign character fail; but zero-padding of
month/day/hour/minute/second is not required, so some strings outside the
exact shape also pass. -/
theorem timestamp_validation_lenient :
    (∀ s : String, canonicalTimestampShape s = true → is_valid_timestamp s = true) ∧
    (∀ s : String, is_valid_timestamp s = true →
      ∀ c ∈ s.toList, c.isDigit = true ∨ c = '-' ∨ c = ':' ∨ c = 'T' ∨ c = 't') ∧
    is_valid_timestamp "2024-1-2T3:4:5" = true ∧
    is_valid_timestamp "2024-01-02T03:04:05.123" = false ∧
    is_valid_timestamp "2024-01-02T03:04:05+00:00" = false ∧
    is_valid_timestamp "2024-01-02T03:04:05-05:00" = false := by
  refine ⟨canonical_timestamp_accepted, is_valid_timestamp_chars, ?_, ?_, ?_, ?_⟩ <;>
    decide

/-- Witness for C6 at the canonical timestamp `2024-01-02T03:04:05`. -/
theorem timestamp_validation_lenient_witness :
    is_valid_timestamp "2024-01-02T03:04:05" = true ∧
    (∀ c ∈ ("2024-01-02T03:04:05").toList,
      c.isDigit = true ∨ c = '-' ∨ c = ':' ∨ c = 'T' ∨ c = 't') :=
  ⟨timestamp_validation_lenient.1 "2024-01-02T03:04:05" (by decide),
   timestamp_validation_lenient.2.1 "2024-01-02T03:04:05"
     (timestamp_validation_lenient.1 "2024-01-02T03:04:05" (by decide))⟩

/-! ## `analytics.py`: rounding, mean, `calculate_metrics` -/

/-- Embeds `statistics.mean` (total here: every call site passes a nonempty
list). -/
def pymean (xs : List ℚ) : ℚ := xs.sum / xs.length

/-- Round half to even to an integer, as CPython's `round` does (on the
exactly representable values evaluated below the binary float and the
rational model agree). -/
def roundHalfEven (x : ℚ) : ℤ :=
  if x - ⌊x⌋ < 1 / 2 then ⌊x⌋
  else if 1 / 2 < x - ⌊x⌋ then ⌊x⌋ + 1
  else if ⌊x⌋ % 2 = 0 then ⌊x⌋ else ⌊x⌋ + 1

/-- Python `round(x, 2)`. -/
def pyRound2 (x : ℚ) : ℚ := (roundHalfEven (x * 100) : ℚ) / 100

theorem le_roundHalfEven (x : ℚ) : ⌊x⌋ ≤ roundHalfEven x := by
  unfold roundHalfEven
  split_ifs <;> omega

theorem roundHalfEven_le (x : ℚ) : roundHalfEven x ≤ ⌊x⌋ + 1 := by
  unfold roundHalfEven
  split_ifs <;> omega

theorem roundHalfEven_intCast (n : ℤ) : roundHalfEven (n : ℚ) = n := by
  unfold roundHalfEven
  rw [Int.floor_intCast]
  have h : (n : ℚ) - n = 0 := by ring
  rw [h]
  norm_num

theorem roundHalfEven_mono {x y : ℚ} (h : x ≤ y) :
    roundHalfEven x ≤ roundHalfEven y := by
  have hf : ⌊x⌋ ≤ ⌊y⌋ := Int.floor_le_floor h
  rcases lt_or_eq_of_le hf with hlt | heq
  · calc roundHalfEven x ≤ ⌊x⌋ + 1 := roundHalfEven_le x
      _ ≤ ⌊y⌋ := by omega
      _ ≤ roundHalfEven y := le_roundHalfEven y
  · have hr : x - ⌊x⌋ ≤ y - ⌊y⌋ := by
      rw [← heq]
      linarith
    unfold roundHalfEven
    rw [← heq]
    split_ifs <;> first | omega | linarith

theorem pyRound2_mono {x y : ℚ} (h : x ≤ y) : pyRound2 x ≤ pyRound2 y := by
  unfold pyRound2
  have h1 : roundHalfEven (x * 100) ≤ roundHalfEven (y * 100) :=
    roundHalfEven_mono (by linarith)
  have h2 : ((roundHalfEven (x * 100) : ℤ) : ℚ) ≤ (roundHalfEven (y * 100) : ℚ) := by
    exact_mod_cast h1
  linarith

/-- The per-key accumulator dict of `calculate_metrics` (the `defaultdict`
value). -/
structure MetricAcc where
  fills : ℕ
  reverted : ℕ
  total_price : ℚ
  prices : List ℚ
  deriving Repr, DecidableEq

/-- One loop iteration of `calculate_metrics`: update the accumulator at
the claim's `(npi, ndc)` key; the `defaultdict` inserts a fresh key at the
end of the dict (first-appearance order). -/
def metricsStep (reverts : List PyVal) (m : List ((String × String) × MetricAcc))
    (claim : Claim) : List ((String × String) × MetricAcc) :=
  let key := (claim.npi, claim.ndc)
  let upd : MetricAcc → MetricAcc := fun a =>
    { fills := a.fills + 1
      reverted := a.reverted + (if pyIn (.str claim.id) reverts then 1 else 0)
      total_price := a.total_price + claim.price
      prices := a.prices ++ [claim.price / (claim.quantity : ℚ)] }
  if (m.find? (fun kv => kv.1 == key)).isSome then
    m.map (fun kv => if kv.1 == key then (kv.1, upd kv.2) else kv)
  else m ++ [(key, upd ⟨0, 0, 0, []⟩)]

/-- The output record shape of `calculate_metrics`. -/
structure MetricRecord where
  npi : String
  ndc : String
  fills : ℕ
  reverted : ℕ
  avg_price : ℚ
  total_price : ℚ
  deriving Repr, DecidableEq

/-- Embeds `analytics.calculate_metrics(claims, reverts)`: a single pass over the
claims grouped by `(npi, ndc)`, then formatting.  The `reverts` parameter is
whatever collection the caller passes: `main.py` passes the filtered revert
dicts, so `claim['id'] in reverts` compares a claim-id string with dicts. -/
def calculate_metrics (claims : List Claim) (reverts : List PyVal) :
    List MetricRecord :=
  (claims.foldl (metricsStep reverts) []).map (fun kv =>
    { npi := kv.1.1
      ndc := kv.1.2
      fills := kv.2.fills
      reverted := kv.2.reverted
      avg_price := if kv.2.prices = [] then 0 else pyRound2 (pymean kv.2.prices)
      total_price := pyRound2 kv.2.total_price })

/-! ## The `main.py` pipeline -/

/-- The analytics portion of `main` (`main.py` lines 64-86): filter claims
by pharmacies, deduplicate them, filter reverts against the filtered (not
yet deduplicated) claims, compute the metrics, and save exactly one output
file, `metrics.json`. -/
def pipeline_outputs (pharmacies : List Pharmacy) (claims : List Claim)
    (reverts : List Revert) : List (String × List MetricRecord) :=
  let claims_data := filter_claims_by_pharmacies claims pharmacies
  let unique_claims := remove_duplicate_claims claims_data
  let reverts_data := filter_reverts_by_claims reverts claims_data
  [("metrics.json",
    calculate_metrics unique_claims (reverts_data.map Revert.toPyVal))]

/-- A claim-id string is never `==` to a revert dict, so Python's `in` test
against a list of revert dicts is always false. -/
theorem pyIn_str_revert_dicts (s : String) (rs : List Revert) :
    pyIn (.str s) (rs.map Revert.toPyVal) = false := by
  induction rs with
  | nil => rfl
  | cons r rest ih =>
    simp only [List.map_cons, pyIn, List.any_cons] at ih ⊢
    rw [ih]
    rfl

/-- Because the membership test always fails, every accumulator in the fold
keeps `reverted = 0`. -/
theorem metricsStep_reverted_zero (rs : List Revert)
    (m : List ((String × String) × MetricAcc)) (claim : Claim)
    (hm : ∀ kv ∈ m, kv.2.reverted = 0) :
    ∀ kv ∈ metricsStep (rs.map Revert.toPyVal) m claim, kv.2.reverted = 0 := by
  intro kv hkv
  unfold metricsStep at hkv
  simp only [pyIn_str_revert_dicts] at hkv
  split at hkv
  · obtain ⟨kv0, hkv0, hkveq⟩ := List.mem_map.mp hkv
    by_cases hk : (kv0.1 == (claim.npi, claim.ndc)) = true
    · rw [if_pos hk] at hkveq
      subst hkveq
      simpa using hm kv0 hkv0
    · rw [if_neg (by simpa using hk)] at hkveq
      subst hkveq
      exact hm kv0 hkv0
  · rcases List.mem_append.mp hkv with hkv | hkv
    · exact hm kv hkv
    · simp only [List.mem_singleton] at hkv
      subst hkv
      rfl

/-- In every metrics record the pipeline can produce, `reverted` is 0. -/
theorem calculate_metrics_reverted_zero (claims : List Claim) (rs : List Revert) :
    ∀ rec ∈ calculate_metrics claims (rs.map Revert.toPyVal), rec.reverted = 0 := by
  have hfold : ∀ m : List ((String × String) × MetricAcc),
      (∀ kv ∈ m, kv.2.reverted = 0) →
      ∀ kv ∈ claims.foldl (metricsStep (rs.map Revert.toPyVal)) m,
        kv.2.reverted = 0 := by
    induction claims with
    | nil => intro m hm; exact hm
    | cons c rest ih =>
      intro m hm
      exact ih _ (metricsStep_reverted_zero rs m c hm)
  intro rec hrec
  obtain ⟨kv, hkv, hkveq⟩ := List.mem_map.mp hrec
  subst hkveq
  exact hfold [] (by simp) kv hkv

/-- Evaluate `pyRound2` when `q * 100` is an integer. -/
theorem pyRound2_eval (q : ℚ) (n : ℤ) (h : q * 100 = (n : ℚ)) :
    pyRound2 q = (n : ℚ) / 100 := by
  unfold pyRound2
  rw [h, roundHalfEven_intCast]

/-! ## Claim C1: the reverted count -/

/-- The spec's aggregator example, first claim: price 10.00, quantity 2. -/
def c1_claim_a : Claim :=
  { id := "c1", ndc := "ndc1", npi := "npi1", quantity := 2, price := 10,
    timestamp := "2024-01-02T03:04:05" }

/-- The spec's aggregator example, second claim: price 20.00, quantity 4. -/
def c1_claim_b : Claim :=
  { id := "c2", ndc := "ndc1", npi := "npi1", quantity := 4, price := 20,
    timestamp := "2024-01-02T03:04:05" }

/-- A revert of the first claim. -/
def c1_revert : Revert :=
  { id := "r1", claim_id := "c1", timestamp := "2024-01-02T03:04:05" }

/-- The pharmacy of the example's provider. -/
def c1_pharmacy : Pharmacy := { npi := "npi1", chain := "chainA" }

/-- C1 fails on the code: on the spec's own example (two claims priced
10.00/qty 2 and 20.00/qty 4 with the first claim reverted), the pipeline
outputs `reverted = 0`, not 1 — `main` passes the revert dicts themselves,
and `claim['id'] in reverts` compares a string against dicts, so it is never
true (see `calculate_metrics_reverted_zero`). -/
theorem metrics_example_reverted_zero :
    pipeline_outputs [c1_pharmacy] [c1_claim_a, c1_claim_b] [c1_revert] =
      [("metrics.json",
        [{ npi := "npi1", ndc := "ndc1", fills := 2, reverted := 0,
           avg_price := 5, total_price := 30 }])] := by
  simp [pipeline_outputs, filter_claims_by_pharmacies,
    remove_duplicate_claims, removeDupAux, filter_reverts_by_claims,
    calculate_metrics, metricsStep, pyIn, pyEq, Revert.toPyVal,
    c1_claim_a, c1_claim_b, c1_revert, c1_pharmacy]
  constructor
  · have hm : pymean [(10 : ℚ) / 2, 20 / 4] = 5 := by norm_num [pymean]
    rw [hm, pyRound2_eval 5 500 (by norm_num)]
    norm_num
  · rw [show ((10 : ℚ) + 20) = 30 by norm_num,
      pyRound2_eval 30 3000 (by norm_num)]
    norm_num

/-! ## Claim C2: the produced reports -/

/-- Counterexample to C2: a complete pipeline run writes exactly one
report, `metrics.json` — no chain-recommendation report and no
dispensed-quantity report is produced. -/
theorem pipeline_produces_single_report :
    (pipeline_outputs [] [] []).map Prod.fst = ["metrics.json"] := rfl

/-- C2 amended: a pipeline run produces exactly one analytic report, the
per-(provider, drug) metrics report, computed from the filtered,
deduplicated claims and the filtered reverts; the chain-recommendation and
quantity analytics exist in `analytics.py` but are never invoked by
`main`. -/
theorem pipeline_report_structure (pharmacies : List Pharmacy)
    (claims : List Claim) (reverts : List Revert) :
    pipeline_outputs pharmacies claims reverts =
      [("metrics.json",
        calculate_metrics
          (remove_duplicate_claims
            (filter_claims_by_pharmacies claims pharmacies))
          ((filter_reverts_by_claims reverts
              (filter_claims_by_pharmacies claims pharmacies)).map
            Revert.toPyVal))] := rfl

/-! ## `analytics.get_chain_recommendations`

pandas operations on the claims/pharmacies frames, embedded step by step:
the inner merge on `npi` (row order: left order, matches in right order),
the `unit_price` column, `groupby(['ndc','chain']).mean()` (group keys
sorted ascending, pandas `groupby` default), `sort_values(['ndc',
'unit_price'])` (modelled with a stable insertion sort; the source's
default quicksort is unstable, so the order among exactly tied rows is not
contractual), `groupby('ndc').head(2)`, and the final per-drug list
building.  String ordering is Python's: lexicographic by Unicode code
point. -/

/-- Python string `<` on the underlying character lists (lexicographic by
code point). -/
def charListLtB : List Char → List Char → Bool
  | [], [] => false
  | [], _ :: _ => true
  | _ :: _, [] => false
  | a :: as, b :: bs =>
    if a.toNat < b.toNat then true
    else if b.toNat < a.toNat then false
    else charListLtB as bs

/-- Python string `<`. -/
def strLtB (a b : String) : Bool := charListLtB a.toList b.toList

theorem char_toNat_inj {a b : Char} (h : a.toNat = b.toNat) : a = b := by
  apply Char.ext
  apply UInt32.ext
  exact h

theorem string_toList_inj {a b : String} (h : a.toList = b.toList) : a = b := by
  cases a; cases b
  simp only [String.toList] at h
  rw [h]

theorem charListLtB_irrefl (as : List Char) : charListLtB as as = false := by
  induction as with
  | nil => rfl
  | cons a as ih => simp [charListLtB, ih]

theorem charListLtB_trans {as bs cs : List Char} (h1 : charListLtB as bs = true)
    (h2 : charListLtB bs cs = true) : charListLtB as cs = true := by
  induction as generalizing bs cs with
  | nil =>
    cases bs with
    | nil => exact absurd h1 (by simp [charListLtB])
    | cons b bs =>
      cases cs with
      | nil => exact absurd h2 (by simp [charListLtB])
      | cons c cs => rfl
  | cons a as ih =>
    cases bs with
    | nil => exact absurd h1 (by simp [charListLtB])
    | cons b bs =>
      cases cs with
      | nil => exact absurd h2 (by simp [charListLtB])
      | cons c cs =>
        simp only [charListLtB] at h1 h2 ⊢
        by_cases hab : a.toNat < b.toNat
        · by_cases hbc : b.toNat < c.toNat
          · simp [show a.toNat < c.toNat by omega]
          · rw [if_neg hbc] at h2
            by_cases hcb : c.toNat < b.toNat
            · rw [if_pos hcb] at h2
              exact absurd h2 (by simp)
            · rw [if_neg hcb] at h2
              simp [show a.toNat < c.toNat by omega]
        · rw [if_neg hab] at h1
          by_cases hba : b.toNat < a.toNat
          · rw [if_pos hba] at h1
            exact absurd h1 (by simp)
          · rw [if_neg hba] at h1
            by_cases hbc : b.toNat < c.toNat
            · simp [show a.toNat < c.toNat by omega]
            · rw [if_neg hbc] at h2
              by_cases hcb : c.toNat < b.toNat
              · rw [if_pos hcb] at h2
                exact absurd h2 (by simp)
              · rw [if_neg hcb] at h2
                rw [if_neg (show ¬ a.toNat < c.toNat by omega),
                    if_neg (show ¬ c.toNat < a.toNat by omega)]
                exact ih h1 h2

theorem charListLtB_trich (as bs : List Char) :
    charListLtB as bs = true ∨ as = bs ∨ charListLtB bs as = true := by
  induction as generalizing bs with
  | nil =>
    cases bs with
    | nil => exact Or.inr (Or.inl rfl)
    | cons b bs => exact Or.inl rfl
  | cons a as ih =>
    cases bs with
    | nil => exact Or.inr (Or.inr rfl)
    | cons b bs =>
      by_cases hab : a.toNat < b.toNat
      · exact Or.inl (by simp [charListLtB, hab])
      · by_cases hba : b.toNat < a.toNat
        · refine Or.inr (Or.inr ?_)
          simp [charListLtB, hba]
        · obtain rfl : a = b := char_toNat_inj (by omega)
          rcases ih bs with h | h | h
          · exact Or.inl (by simp [charListLtB, h])
          · exact Or.inr (Or.inl (by rw [h]))
          · exact Or.inr (Or.inr (by simp [charListLtB, h]))

theorem strLtB_irrefl (a : String) : strLtB a a = false :=
  charListLtB_irrefl a.toList

theorem strLtB_trans {a b c : String} (h1 : strLtB a b = true)
    (h2 : strLtB b c = true) : strLtB a c = true :=
  charListLtB_trans h1 h2

theorem strLtB_trich (a b : String) :
    strLtB a b = true ∨ a = b ∨ strLtB b a = true := by
  rcases charListLtB_trich a.toList b.toList with h | h | h
  · exact Or.inl h
  · exact Or.inr (Or.inl (string_toList_inj h))
  · exact Or.inr (Or.inr h)

/-- A `(ndc, chain)` group row of the `avg_prices` frame. -/
structure ChainAvg where
  ndc : String
  chain : String
  unit_price : ℚ
  deriving Repr, DecidableEq

/-- Row order of `sort_values(['ndc', 'unit_price'])`: by drug code, then
by average unit price. -/
def rowLe (a b : ChainAvg) : Prop :=
  strLtB a.ndc b.ndc = true ∨ (a.ndc = b.ndc ∧ a.unit_price ≤ b.unit_price)

instance : DecidableRel rowLe := fun a b => by
  unfold rowLe
  infer_instance

instance : IsTrans ChainAvg rowLe :=
  ⟨by
    intro a b c h1 h2
    rcases h1 with h1 | ⟨e1, p1⟩ <;> rcases h2 with h2 | ⟨e2, p2⟩
    · exact Or.inl (strLtB_trans h1 h2)
    · exact Or.inl (by rw [← e2]; exact h1)
    · exact Or.inl (by rw [e1]; exact h2)
    · exact Or.inr ⟨e1.trans e2, p1.trans p2⟩⟩

instance : IsTotal ChainAvg rowLe :=
  ⟨by
    intro a b
    rcases strLtB_trich a.ndc b.ndc with h | h | h
    · exact Or.inl (Or.inl h)
    · rcases le_total a.unit_price b.unit_price with hp | hp
      · exact Or.inl (Or.inr ⟨h, hp⟩)
      · exact Or.inr (Or.inr ⟨h.symm, hp⟩)
    · exact Or.inr (Or.inl h)⟩

/-- Group-key order of `groupby(['ndc', 'chain'])` (keys sorted
ascending). -/
def keyLe (a b : String × String) : Prop :=
  strLtB a.1 b.1 = true ∨ (a.1 = b.1 ∧ (strLtB a.2 b.2 = true ∨ a.2 = b.2))

instance : DecidableRel keyLe := fun a b => by
  unfold keyLe
  infer_instance

/-- Drug-code order of the final `groupby('ndc')`. -/
def ndcLe (a b : String) : Prop := strLtB a b = true ∨ a = b

instance : DecidableRel ndcLe := fun a b => by
  unfold ndcLe
  infer_instance

/-- Embeds `claims_df.merge(pharmacies_df, on='npi')`: the inner join on the
provider identifier, in left-row order with the matching pharmacy rows in
right order; each merged row carries the claim and the matched `chain`. -/
def mergedRows (claims : List Claim) (pharmacies : List Pharmacy) :
    List (Claim × String) :=
  claims.flatMap (fun c =>
    (pharmacies.filter (fun p => p.npi == c.npi)).map (fun p => (c, p.chain)))

/-- The `unit_price` column: `price / quantity`. -/
def rowUnitPrice (r : Claim × String) : ℚ := r.1.price / (r.1.quantity : ℚ)

/-- The distinct `(ndc, chain)` group keys, sorted ascending (pandas
`groupby` sorts group keys by default; `dedup` realises the key set). -/
def chainGroupKeys (rows : List (Claim × String)) : List (String × String) :=
  List.insertionSort keyLe ((rows.map (fun r => (r.1.ndc, r.2))).dedup)

/-- Embeds `merged.groupby(['ndc', 'chain'])['unit_price'].mean().reset_index()`:
one row per group with the group's mean unit price (groups are nonempty by
construction, their keys being drawn from the rows). -/
def avg_prices (claims : List Claim) (pharmacies : List Pharmacy) :
    List ChainAvg :=
  let rows := mergedRows claims pharmacies
  (chainGroupKeys rows).map (fun k =>
    { ndc := k.1
      chain := k.2
      unit_price := pymean ((rows.filter
        (fun r => r.1.ndc == k.1 && r.2 == k.2)).map rowUnitPrice) })

/-- Embeds `avg_prices.sort_values(['ndc', 'unit_price'])`. -/
def sortedAvg (claims : List Claim) (pharmacies : List Pharmacy) :
    List ChainAvg :=
  List.insertionSort rowLe (avg_prices claims pharmacies)

/-- Embeds `groupby('ndc').head(2)`: keep the first two rows of each drug, in row
order; `counts` records how many rows of each drug have been kept. -/
def groupHead2 (counts : String → ℕ) : List ChainAvg → List ChainAvg
  | [] => []
  | r :: rest =>
    if counts r.ndc < 2 then
      r :: groupHead2 (fun d => if d = r.ndc then counts r.ndc + 1 else counts d) rest
    else groupHead2 counts rest

/-- The rows surviving `head(2)`. -/
def top2Rows (claims : List Claim) (pharmacies : List Pharmacy) :
    List ChainAvg :=
  groupHead2 (fun _ => 0) (sortedAvg claims pharmacies)

/-- Embeds `analytics.get_chain_recommendations(claims_df, pharmacies_df)`: per
drug (ascending), the list of its surviving rows as
`{name: chain, avg_price: round(unit_price, 2)}`. -/
def get_chain_recommendations (claims : List Claim)
    (pharmacies : List Pharmacy) : List (String × List (String × ℚ)) :=
  let rows := top2Rows claims pharmacies
  (List.insertionSort ndcLe ((rows.map (·.ndc)).dedup)).map
    (fun d => (d, (rows.filter (fun r => r.ndc == d)).map
      (fun r => (r.chain, pyRound2 r.unit_price))))

/-! Lemmas about `groupHead2`. -/

theorem groupHead2_filter (counts : String → ℕ) (rows : List ChainAvg)
    (d : String) :
    (groupHead2 counts rows).filter (fun r => r.ndc == d) =
      (rows.filter (fun r => r.ndc == d)).take (2 - counts d) := by
  induction rows generalizing counts with
  | nil => simp [groupHead2]
  | cons r rest ih =>
    by_cases hrd : r.ndc = d
    · by_cases hcnt : counts r.ndc < 2
      · rw [groupHead2, if_pos hcnt]
        rw [List.filter_cons_of_pos (by simp [hrd]),
            List.filter_cons_of_pos (by simp [hrd])]
        rw [ih]
        rw [if_pos hrd.symm, hrd]
        have h2 : 2 - counts d = (2 - (counts d + 1)) + 1 := by
          rw [hrd] at hcnt
          omega
        rw [h2, List.take_succ_cons]
      · rw [groupHead2, if_neg hcnt]
        rw [List.filter_cons_of_pos (by simp [hrd])]
        rw [ih]
        rw [hrd] at hcnt
        rw [show 2 - counts d = 0 by omega]
        simp
    · by_cases hcnt : counts r.ndc < 2
      · rw [groupHead2, if_pos hcnt]
        rw [List.filter_cons_of_neg (by simp [hrd]),
            List.filter_cons_of_neg (by simp [hrd])]
        rw [ih]
        rw [if_neg (show ¬ d = r.ndc from fun hdd => hrd hdd.symm)]
      · rw [groupHead2, if_neg hcnt]
        rw [List.filter_cons_of_neg (by simp [hrd])]
        exact ih counts

theorem groupHead2_sublist (counts : String → ℕ) (rows : List ChainAvg) :
    (groupHead2 counts rows).Sublist rows := by
  induction rows generalizing counts with
  | nil => simp [groupHead2]
  | cons r rest ih =>
    by_cases hcnt : counts r.ndc < 2
    · rw [groupHead2, if_pos hcnt]
      exact (ih _).cons₂ r
    · rw [groupHead2, if_neg hcnt]
      exact (ih counts).trans (List.sublist_cons_self r rest)

/-- The per-drug guarantees of the chain recommender: for a drug's entry in
the output, the listed chains number at most 2, appear in ascending order
of (rounded) average unit price, and each listed chain is a real
`(drug, chain)` group whose average unit price is at or below that of every
group of the drug that is not listed. -/
theorem c9_general (claims : List Claim) (pharmacies : List Pharmacy) (d : String)
    (entries : List (String × ℚ))
    (hmem : (d, entries) ∈ get_chain_recommendations claims pharmacies) :
    entries.length ≤ 2 ∧
    entries.Pairwise (fun a b => a.2 ≤ b.2) ∧
    (∀ e ∈ entries, ∃ g, g ∈ avg_prices claims pharmacies ∧
      g.ndc = d ∧ g.chain = e.1 ∧ e.2 = pyRound2 g.unit_price ∧
      ∀ g2, g2 ∈ avg_prices claims pharmacies → g2.ndc = d →
        g2.chain ∉ entries.map Prod.fst →
        g.unit_price ≤ g2.unit_price) := by
  simp only [get_chain_recommendations, List.mem_map] at hmem
  obtain ⟨d0, hd0, heq⟩ := hmem
  obtain ⟨h1, h2⟩ := Prod.mk.inj heq
  subst h1
  subst h2
  have hL : (top2Rows claims pharmacies).filter (fun r => r.ndc == d0) =
      ((sortedAvg claims pharmacies).filter (fun r => r.ndc == d0)).take 2 := by
    unfold top2Rows
    rw [groupHead2_filter]
  have hSorted : List.Pairwise rowLe (sortedAvg claims pharmacies) :=
    List.sorted_insertionSort rowLe (avg_prices claims pharmacies)
  have hF : List.Pairwise rowLe
      ((sortedAvg claims pharmacies).filter (fun r => r.ndc == d0)) :=
    hSorted.filter _
  have hFd : ∀ r ∈ (sortedAvg claims pharmacies).filter (fun r => r.ndc == d0),
      r.ndc = d0 := by
    intro r hr
    simpa using (List.mem_filter.mp hr).2
  have hmemS : ∀ r : ChainAvg,
      r ∈ sortedAvg claims pharmacies ↔ r ∈ avg_prices claims pharmacies :=
    fun r => (List.perm_insertionSort rowLe (avg_prices claims pharmacies)).mem_iff
  have hsubL : ∀ r, r ∈ (top2Rows claims pharmacies).filter (fun x => x.ndc == d0) →
      r ∈ (sortedAvg claims pharmacies).filter (fun x => x.ndc == d0) := by
    intro r hr
    rw [hL] at hr
    exact (List.take_sublist 2 _).subset hr
  refine ⟨?_, ?_, ?_⟩
  · rw [List.length_map, hL, List.length_take]
    exact min_le_left _ _
  · rw [List.pairwise_map]
    have hPL : List.Pairwise rowLe
        ((top2Rows claims pharmacies).filter (fun r => r.ndc == d0)) := by
      rw [hL]
      exact List.Pairwise.sublist (List.take_sublist 2 _) hF
    refine List.Pairwise.imp_of_mem ?_ hPL
    intro a b ha hb hab
    rcases hab with h | ⟨_, h⟩
    · rw [hFd a (hsubL a ha), hFd b (hsubL b hb), strLtB_irrefl] at h
      cases h
    · exact pyRound2_mono h
  · intro e he
    obtain ⟨r, hrL, rfl⟩ := List.mem_map.mp he
    have hrF : r ∈ (sortedAvg claims pharmacies).filter (fun x => x.ndc == d0) :=
      hsubL r hrL
    have hrS : r ∈ sortedAvg claims pharmacies := (List.mem_filter.mp hrF).1
    refine ⟨r, (hmemS r).mp hrS, hFd r hrF, rfl, rfl, ?_⟩
    intro g2 hg2 hg2d hg2chain
    have hg2S : g2 ∈ sortedAvg claims pharmacies := (hmemS g2).mpr hg2
    have hg2F : g2 ∈ (sortedAvg claims pharmacies).filter (fun x => x.ndc == d0) :=
      List.mem_filter.mpr ⟨hg2S, by simp [hg2d]⟩
    have hg2nT : g2 ∉ ((sortedAvg claims pharmacies).filter
        (fun x => x.ndc == d0)).take 2 := by
      intro hmem2
      apply hg2chain
      rw [List.map_map]
      refine List.mem_map.mpr ⟨g2, ?_, rfl⟩
      rw [hL]
      exact hmem2
    have hg2drop : g2 ∈ ((sortedAvg claims pharmacies).filter
        (fun x => x.ndc == d0)).drop 2 := by
      have hsplitm : g2 ∈ ((sortedAvg claims pharmacies).filter
          (fun x => x.ndc == d0)).take 2 ++
          ((sortedAvg claims pharmacies).filter (fun x => x.ndc == d0)).drop 2 := by
        rw [List.take_append_drop]
        exact hg2F
      rcases List.mem_append.mp hsplitm with h | h
      · exact absurd h hg2nT
      · exact h
    have hsplit : List.Pairwise rowLe
        (((sortedAvg claims pharmacies).filter (fun x => x.ndc == d0)).take 2 ++
         ((sortedAvg claims pharmacies).filter (fun x => x.ndc == d0)).drop 2) := by
      rw [List.take_append_drop]
      exact hF
    have hrT : r ∈ ((sortedAvg claims pharmacies).filter
        (fun x => x.ndc == d0)).take 2 := by
      rw [← hL]
      exact hrL
    have hrel : rowLe r g2 := (List.pairwise_append.mp hsplit).2.2 r hrT g2 hg2drop
    rcases hrel with h | ⟨_, h⟩
    · rw [hFd r hrF, hg2d, strLtB_irrefl] at h
      cases h
    · exact h

/-- The spec's recommender example: drug `D1` at chain `A` with unit price
3.00. -/
def c9_claim_a : Claim :=
  { id := "i1", ndc := "D1", npi := "n1", quantity := 1, price := 3,
    timestamp := "2024-01-02T03:04:05" }

/-- Drug `D1` at chain `B` with unit price 2.00. -/
def c9_claim_b : Claim :=
  { id := "i2", ndc := "D1", npi := "n2", quantity := 1, price := 2,
    timestamp := "2024-01-02T03:04:05" }

/-- Drug `D1` at chain `C` with unit price 5.00. -/
def c9_claim_c : Claim :=
  { id := "i3", ndc := "D1", npi := "n3", quantity := 1, price := 5,
    timestamp := "2024-01-02T03:04:05" }

/-- The recommender example's claims. -/
def c9_claims : List Claim := [c9_claim_a, c9_claim_b, c9_claim_c]

/-- The recommender example's pharmacies (chains `A`, `B`, `C`). -/
def c9_pharmacies : List Pharmacy :=
  [{ npi := "n1", chain := "A" }, { npi := "n2", chain := "B" },
   { npi := "n3", chain := "C" }]

/-- The recommender's output on the spec's example. -/
theorem c9_example_eval : get_chain_recommendations c9_claims c9_pharmacies =
    [("D1", [("B", 2), ("A", 3)])] := by
  have h1 : mergedRows c9_claims c9_pharmacies =
      [(c9_claim_a, "A"), (c9_claim_b, "B"), (c9_claim_c, "C")] := by decide
  have h2 : chainGroupKeys
      [(c9_claim_a, "A"), (c9_claim_b, "B"), (c9_claim_c, "C")] =
      [("D1", "A"), ("D1", "B"), ("D1", "C")] := by decide
  have hfA : ([(c9_claim_a, "A"), (c9_claim_b, "B"), (c9_claim_c, "C")].filter
      (fun r => r.1.ndc == "D1" && r.2 == "A")) = [(c9_claim_a, "A")] := by decide
  have hfB : ([(c9_claim_a, "A"), (c9_claim_b, "B"), (c9_claim_c, "C")].filter
      (fun r => r.1.ndc == "D1" && r.2 == "B")) = [(c9_claim_b, "B")] := by decide
  have hfC : ([(c9_claim_a, "A"), (c9_claim_b, "B"), (c9_claim_c, "C")].filter
      (fun r => r.1.ndc == "D1" && r.2 == "C")) = [(c9_claim_c, "C")] := by decide
  have h3 : avg_prices c9_claims c9_pharmacies =
      [⟨"D1", "A", 3⟩, ⟨"D1", "B", 2⟩, ⟨"D1", "C", 5⟩] := by
    simp only [avg_prices]
    rw [h1, h2]
    simp only [List.map_cons, List.map_nil]
    rw [hfA, hfB, hfC]
    norm_num [pymean, rowUnitPrice, c9_claim_a, c9_claim_b, c9_claim_c]
  have h4 : sortedAvg c9_claims c9_pharmacies =
      [⟨"D1", "B", 2⟩, ⟨"D1", "A", 3⟩, ⟨"D1", "C", 5⟩] := by
    unfold sortedAvg
    rw [h3]
    decide
  have h5 : top2Rows c9_claims c9_pharmacies =
      [⟨"D1", "B", 2⟩, ⟨"D1", "A", 3⟩] := by
    unfold top2Rows
    rw [h4]
    decide
  have hfin : get_chain_recommendations c9_claims c9_pharmacies =
      [("D1", [("B", pyRound2 2), ("A", pyRound2 3)])] := by
    simp only [get_chain_recommendations]
    rw [h5]
    rfl
  rw [hfin, pyRound2_eval 2 200 (by norm_num), pyRound2_eval 3 300 (by norm_num)]
  norm_num

/-- C9: for every drug in the recommender's output, the listed chains are
the at-most-2 cheapest chains by average unit price, ascending; and on the
spec's example (drug `D1` at chains `A`/`B`/`C` with unit prices
3.00/2.00/5.00) the output for `D1` is `[{B, 2.00}, {A, 3.00}]`. -/
theorem chain_recommendations_top2 :
    (∀ (claims : List Claim) (pharmacies : List Pharmacy) (d : String)
        (entries : List (String × ℚ)),
      (d, entries) ∈ get_chain_recommendations claims pharmacies →
      entries.length ≤ 2 ∧
      entries.Pairwise (fun a b => a.2 ≤ b.2) ∧
      (∀ e ∈ entries, ∃ g, g ∈ avg_prices claims pharmacies ∧
        g.ndc = d ∧ g.chain = e.1 ∧ e.2 = pyRound2 g.unit_price ∧
        ∀ g2, g2 ∈ avg_prices claims pharmacies → g2.ndc = d →
          g2.chain ∉ entries.map Prod.fst →
          g.unit_price ≤ g2.unit_price)) ∧
    get_chain_recommendations c9_claims c9_pharmacies =
      [("D1", [("B", 2), ("A", 3)])] :=
  ⟨c9_general, c9_example_eval⟩

/-- Witness for C9 at the spec's example. -/
theorem chain_recommendations_top2_witness :
    ([("B", (2 : ℚ)), ("A", (3 : ℚ))]).length ≤ 2 ∧
    List.Pairwise (fun (a b : String × ℚ) => a.2 ≤ b.2)
      [("B", (2 : ℚ)), ("A", (3 : ℚ))] ∧
    (∀ e ∈ [("B", (2 : ℚ)), ("A", (3 : ℚ))],
      ∃ g, g ∈ avg_prices c9_claims c9_pharmacies ∧
        g.ndc = "D1" ∧ g.chain = e.1 ∧ e.2 = pyRound2 g.unit_price ∧
        ∀ g2, g2 ∈ avg_prices c9_claims c9_pharmacies → g2.ndc = "D1" →
          g2.chain ∉ ([("B", (2 : ℚ)), ("A", (3 : ℚ))]).map Prod.fst →
          g.unit_price ≤ g2.unit_price) :=
  chain_recommendations_top2.1 c9_claims c9_pharmacies "D1"
    [("B", 2), ("A", 3)]
    (by
      rw [chain_recommendations_top2.2]
      simp)
